import Mathlib

/-!
Verification development for the clp-wasm stream decoding and event-buffering
engine, shallowly embedding `src/ClpIrV1Decoder.cpp` and
`src/clp_ffi_js/ir/StreamReader.cpp`.

Machine sizes (`size_t`) are modelled as `Nat`; fallible C++ paths return
`Except`; an uncaught C++ exception escaping a method is an `.error`
constructor of the method's return type.
-/

deriving instance DecidableEq for Except

namespace ClpWasm

/-- `std::string::starts_with`, modelled over the string's character list so
that concrete evaluations reduce. -/
def string_starts_with (s pre : String) : Bool := pre.data.isPrefixOf s.data

/-- The suffix of a string from character position `n` (the in-bounds behavior
of `std::string::substr(n)`), modelled over the character list. -/
def string_drop (s : String) (n : Nat) : String := ⟨s.data.drop n⟩

/- Constants from the anonymous namespace of `ClpIrV1Decoder.cpp` (lines 29-34). -/

def cDefaultNumCharsPerMessage : Nat := 512

def cDefaultNumLogEvents : Nat := 500000

def cFullRangeEndIdx : Nat := 0

def cLogLevelNone : Nat := 0

/-- Modelled from the spec: `cLogLevelNames` lives in `constants.hpp`, which is not
under `src/`.  Per the spec it is a fixed ordered table of level-name tokens whose
index 0 is the reserved "none" entry; the concrete entries are a configuration
constant whose exact values no claim depends on. -/
def cLogLevelNames : List String :=
  ["NONE", "TRACE", "DEBUG", "INFO", "WARN", "ERROR", "FATAL"]

/- Unstructured log events (`clp::ir::LogEvent<four_byte_encoded_variable_t>`).
The logtype is a template of literal runs and placeholders consumed
left-to-right (spec section 3 "LogtypeTemplate"). -/

inductive LogtypeToken
  | literal (s : String)
  | intVar
  | floatVar
  | dictVar
deriving Repr, DecidableEq

structure LogEvent where
  logtype : List LogtypeToken
  encodedVars : List Int
  dictVars : List String
  timestamp : Int
deriving Repr, DecidableEq

/-- Modelled from the spec: `clp::ffi::decode_integer_var`, an external pure
codec function converting an encoded integer token back to text. -/
def decode_integer_var (v : Int) : String := toString v

/-- Modelled from the spec: `clp::ffi::decode_float_var`, an external pure codec
function converting an encoded float token back to text; the exact rendering is
opaque to this repository, so it is modelled as an arbitrary total function. -/
def decode_float_var (v : Int) : String := toString v

/-- Modelled from the spec: `clp::ffi::ir_stream::generic_decode_message<true>`
(called at `ClpIrV1Decoder.cpp` lines 170-178) walks the logtype template left to
right, appending literal runs verbatim and substituting each placeholder with the
next encoded or dictionary variable; a placeholder with no remaining variable
raises `DecodingException`, modelled as `none`. -/
def generic_decode_message : List LogtypeToken → List Int → List String → Option String
  | [], _, _ => some ""
  | .literal s :: rest, evs, dvs =>
      (generic_decode_message rest evs dvs).map (fun t => s ++ t)
  | .intVar :: rest, v :: evs, dvs =>
      (generic_decode_message rest evs dvs).map (fun t => decode_integer_var v ++ t)
  | .intVar :: _, [], _ => none
  | .floatVar :: rest, v :: evs, dvs =>
      (generic_decode_message rest evs dvs).map (fun t => decode_float_var v ++ t)
  | .floatVar :: _, [], _ => none
  | .dictVar :: rest, evs, d :: dvs =>
      (generic_decode_message rest evs dvs).map (fun t => d ++ t)
  | .dictVar :: _, _, [] => none

/-- The C++ exceptions that can escape `ClpIrV1Decoder::decode` uncaught. -/
inductive CppException
  | outOfRange
deriving Repr, DecidableEq

/-- `std::string::substr(pos)`: yields the suffix starting at `pos`, and throws
`std::out_of_range` when `pos` exceeds the string's size. -/
def string_substr (s : String) (pos : Nat) : Except CppException String :=
  if pos ≤ s.length then .ok (string_drop s pos) else .error .outOfRange

/-- The scan of `ClpIrV1Decoder.cpp` lines 185-190: walk the level-name table
from position `i` (the names list is the table's tail starting at index `i`),
returning the index of the first entry `tail` starts with, else `cLogLevelNone`. -/
def scanLogLevelNames (tail : String) (i : Nat) : List String → Nat
  | [] => cLogLevelNone
  | name :: rest =>
      if string_starts_with tail name then i else scanLogLevelNames tail (i + 1) rest

/-- Lines 184-190 of `ClpIrV1Decoder.cpp`: `message.substr(1)` then a first-match
scan of `cLogLevelNames` from index 1 upward. -/
def computeLogLevel (message : String) : Except CppException Nat :=
  (string_substr message 1).map
    (fun tail => scanLogLevelNames tail 1 (cLogLevelNames.drop 1))

/-- Modelled from the spec: `clp::TimestampPattern::insert_formatted_timestamp`
(line 192) renders the event's epoch-millisecond timestamp with the fixed
stream-global pattern and inserts it into the message; the pattern engine lives
outside this repository, so the insertion is modelled as appending the pattern
text followed by the decimal timestamp. -/
def insert_formatted_timestamp (pattern : String) (timestamp : Int) (message : String) : String :=
  message ++ pattern ++ toString timestamp

/- The deserializer (`clp::ir::LogEventDeserializer`): external to this
repository, so its observable call sequence is modelled from the spec. -/

/-- The terminal condition `deserialize_log_event` reports once the events run
out: `std::errc::no_message_available` (end-of-stream), `result_out_of_range`
(truncation), or any other error code (malformed record). -/
inductive Terminal
  | endOfStream
  | incompleteStream
  | corruptStream (category message : String)
deriving Repr, DecidableEq

/-- Modelled from the spec: the byte stream as seen through successive
`deserialize_log_event()` calls — zero or more well-formed events followed by
exactly one terminal condition (spec sections 4.2 and 6). -/
structure IrEventStream where
  events : List LogEvent
  terminal : Terminal
deriving Repr, DecidableEq

inductive ClpJsError
  | unsupported (message : String)
  | metadataCorrupted (message : String)
  | corrupt (message : String)
deriving Repr, DecidableEq

/-- The mutable state of a `ClpIrV1Decoder` instance.  `m_log_events_capacity`
models `m_log_events.capacity()`, whose zero test at line 107 guards the one-time
build; `m_data_buffer` is `some len` while the backing buffer is held and `none`
once `m_data_buffer.reset(nullptr)` has run; `m_deserializer` is the not yet
consumed remainder of the deserializer's call sequence. -/
structure ClpIrV1Decoder where
  m_log_events : List LogEvent
  m_log_events_capacity : Nat
  m_data_buffer : Option Nat
  m_deserializer : IrEventStream
  m_ts_pattern : String
deriving Repr, DecidableEq

/-- The state a freshly created decoder starts in: empty event vector with zero
capacity, the backing data buffer held, and the whole stream ahead. -/
def ClpIrV1Decoder.init (stream : IrEventStream) (pattern : String) (data_len : Nat) :
    ClpIrV1Decoder :=
  ⟨[], 0, some data_len, stream, pattern⟩

/-- `ClpIrV1Decoder::get_estimated_num_events` (lines 94-96). -/
def ClpIrV1Decoder.get_estimated_num_events (st : ClpIrV1Decoder) : Nat :=
  st.m_log_events.length

structure BuildResult where
  numValidEvents : Nat
  numInvalidEvents : Nat
deriving Repr, DecidableEq

/-- The `while (true)` loop of lines 109-129: append each successfully
deserialized event to the vector until the terminal condition is reached. -/
def runBuildLoop : List LogEvent → List LogEvent → Terminal → List LogEvent × Terminal
  | acc, [], t => (acc, t)
  | acc, e :: rest, t => runBuildLoop (acc ++ [e]) rest t

/-- `ClpIrV1Decoder::build_idx` (lines 98-137).  The state is threaded through
so that the vector growth, the buffer release at line 130, and the stream
consumption stay observable even when the function throws (lines 100-105 and
123-128); on the corrupt path the throw at line 123 skips the
`m_data_buffer.reset(nullptr)` at line 130.  The capacity after the build models
`reserve(cDefaultNumLogEvents)` followed by any growth past it. -/
def ClpIrV1Decoder.build_idx (st : ClpIrV1Decoder) (begin_idx end_idx : Nat) :
    ClpIrV1Decoder × Except ClpJsError BuildResult :=
  if 0 ≠ begin_idx ∧ cFullRangeEndIdx ≠ end_idx then
    (st, .error (.unsupported "Partial range indexing building is not yet supported."))
  else if st.m_log_events_capacity = 0 then
    match runBuildLoop st.m_log_events st.m_deserializer.events st.m_deserializer.terminal with
    | (evs, .endOfStream) =>
        (⟨evs, max cDefaultNumLogEvents evs.length, none, ⟨[], .endOfStream⟩, st.m_ts_pattern⟩,
         .ok ⟨evs.length, 0⟩)
    | (evs, .incompleteStream) =>
        (⟨evs, max cDefaultNumLogEvents evs.length, none, ⟨[], .incompleteStream⟩, st.m_ts_pattern⟩,
         .ok ⟨evs.length, 0⟩)
    | (evs, .corruptStream cat msg) =>
        (⟨evs, max cDefaultNumLogEvents evs.length, st.m_data_buffer,
          ⟨[], .corruptStream cat msg⟩, st.m_ts_pattern⟩,
         .error (.corrupt ("Failed to decompress: " ++ cat ++ ":" ++ msg)))
  else
    (st, .ok ⟨st.m_log_events.length, 0⟩)

structure DecodedTuple where
  message : String
  timestamp : Int
  logLevel : Nat
  eventNumber : Nat
deriving Repr, DecidableEq

/-- The `for` loop of lines 151-202: per event, render the message (a
`DecodingException` is caught and breaks the loop, keeping the tuples so far),
compute the log level (whose `substr` can throw out of the whole method), insert
the formatted timestamp and push the tuple with the 1-based event number
`begin_idx + offset + 1` (line 200). -/
def decodeLoop (pattern : String) (begin_idx : Nat) :
    List LogEvent → Nat → List DecodedTuple → Except CppException (List DecodedTuple)
  | [], _, acc => .ok acc
  | ev :: rest, offset, acc =>
      match generic_decode_message ev.logtype ev.encodedVars ev.dictVars with
      | none => .ok acc
      | some msg =>
          match computeLogLevel msg with
          | .error e => .error e
          | .ok lvl =>
              decodeLoop pattern begin_idx rest (offset + 1)
                (acc ++ [⟨insert_formatted_timestamp pattern ev.timestamp msg,
                          ev.timestamp, lvl, begin_idx + offset + 1⟩])

/-- `ClpIrV1Decoder::decode` (lines 139-205).  The `0 > begin_idx` disjunct of
the guard at line 140 is vacuous for a `size_t` and is dropped; `.ok none`
models the `emscripten::val::null()` return. -/
def ClpIrV1Decoder.decode (st : ClpIrV1Decoder) (begin_idx end_idx : Nat) :
    Except CppException (Option (List DecodedTuple)) :=
  if st.m_log_events.length < end_idx ∨ begin_idx ≥ end_idx then
    .ok none
  else
    (decodeLoop st.m_ts_pattern begin_idx
      ((st.m_log_events.drop begin_idx).take (end_idx - begin_idx)) 0 []).map some

/-- An event whose message renders without `DecodingException` and is nonempty,
so that the level computation's `substr(1)` cannot throw. -/
def rendersCleanly (ev : LogEvent) : Bool :=
  match generic_decode_message ev.logtype ev.encodedVars ev.dictVars with
  | some msg => decide (1 ≤ msg.length)
  | none => false

/- `StreamReader.cpp`: creation-time validation (lines 33-134). -/

inductive ClpFfiJsErrorCode
  | metadataCorrupted
  | unsupported
  | failure
deriving Repr, DecidableEq

/-- What the external JSON parser sees in the metadata block once the preamble
bytes have been deserialized. -/
inductive MetadataJson
  | unparseable
  | missingVersionKey
  | withVersion (v : String)
deriving Repr, DecidableEq

/-- A compressed input as observed through the external readers used by
`StreamReader::create`: `encodingTag` is `none` when `get_encoding_type` fails
and otherwise carries the four-byte-encoding flag; `metadata` is `none` when
`deserialize_preamble` fails and otherwise carries the parse outcome of the
metadata block. -/
structure StreamSource where
  encodingTag : Option Bool
  metadata : Option MetadataJson
deriving Repr, DecidableEq

/-- Modelled from the spec: `cUnstructuredIrVersions` lives in
`clp_ffi_js/constants.hpp`, which is not under `src/`; per the spec it is the
set of stream versions that have a known deserialization strategy. -/
def cUnstructuredIrVersions : List String := ["0.0.1", "0.0.2"]

/-- `rewind_reader_and_validate_encoding_type` (`StreamReader.cpp` lines 33-55). -/
def rewind_reader_and_validate_encoding_type (src : StreamSource) :
    Except ClpFfiJsErrorCode Unit :=
  match src.encodingTag with
  | none => .error .metadataCorrupted
  | some isFourBytes => if isFourBytes then .ok () else .error .unsupported

/-- `get_version` (`StreamReader.cpp` lines 57-96): a preamble deserialization
failure throws with `ErrorCode_Failure` (line 66); a JSON parse failure or a
missing version key throws `nlohmann::json::exception`, caught and rethrown
with `ErrorCode_MetadataCorrupted` (lines 85-92). -/
def get_version (src : StreamSource) : Except ClpFfiJsErrorCode String :=
  match src.metadata with
  | none => .error .failure
  | some .unparseable => .error .metadataCorrupted
  | some .missingVersionKey => .error .metadataCorrupted
  | some (.withVersion v) => .ok v

/-- `StreamReader::create` (lines 98-134): validate the encoding type, read the
version, and construct a reader when the version is known (modelled as returning
the version); an unknown version throws `ErrorCode_Unsupported` (line 128). -/
def StreamReader.create (src : StreamSource) : Except ClpFfiJsErrorCode String := do
  rewind_reader_and_validate_encoding_type src
  let version ← get_version src
  if version ∈ cUnstructuredIrVersions then
    return version
  else
    throw .unsupported

/- Concrete sample data used by counterexamples and witnesses. -/

/-- A one-literal event whose rendered message is `"A hello"`. -/
def sampleEvent : LogEvent := ⟨[.literal "A hello"], [], [], 5⟩

/-- An event whose template wants an encoded integer but carries no variables,
so rendering raises `DecodingException`. -/
def failEvent : LogEvent := ⟨[.intVar], [], [], 7⟩

/-- An event with an empty logtype, rendering to the empty message. -/
def emptyMsgEvent : LogEvent := ⟨[], [], [], 3⟩

def eosSample : IrEventStream := ⟨[sampleEvent], .endOfStream⟩

def corruptSample : IrEventStream := ⟨[sampleEvent], .corruptStream "clp" "bad record"⟩

def corruptState0 : ClpIrV1Decoder := ClpIrV1Decoder.init corruptSample "p" 10

def corruptState1 : ClpIrV1Decoder := (corruptState0.build_idx 0 0).1

def builtState : ClpIrV1Decoder := ((ClpIrV1Decoder.init eosSample "p" 10).build_idx 0 0).1

def mixedState : ClpIrV1Decoder :=
  ((ClpIrV1Decoder.init ⟨[sampleEvent, failEvent], .endOfStream⟩ "p" 10).build_idx 0 0).1

def emptyMsgState : ClpIrV1Decoder :=
  ((ClpIrV1Decoder.init ⟨[emptyMsgEvent], .endOfStream⟩ "p" 4).build_idx 0 0).1

/- Helper lemmas shared by the claim theorems. -/

theorem runBuildLoop_eq (acc evs : List LogEvent) (t : Terminal) :
    runBuildLoop acc evs t = (acc ++ evs, t) := by
  induction evs generalizing acc with
  | nil => simp [runBuildLoop]
  | cons e rest ih => simp [runBuildLoop, ih]

theorem capacity_after_build_ne_zero (n : Nat) : max cDefaultNumLogEvents n ≠ 0 := by
  have h : cDefaultNumLogEvents = 500000 := rfl
  omega

theorem build_idx_init_done (evs : List LogEvent) (pattern : String) (len : Nat) :
    (ClpIrV1Decoder.init ⟨evs, .endOfStream⟩ pattern len).build_idx 0 0 =
      (⟨evs, max cDefaultNumLogEvents evs.length, none, ⟨[], .endOfStream⟩, pattern⟩,
       .ok ⟨evs.length, 0⟩) := by
  simp [ClpIrV1Decoder.build_idx, ClpIrV1Decoder.init, runBuildLoop_eq]

theorem build_idx_init_truncated (evs : List LogEvent) (pattern : String) (len : Nat) :
    (ClpIrV1Decoder.init ⟨evs, .incompleteStream⟩ pattern len).build_idx 0 0 =
      (⟨evs, max cDefaultNumLogEvents evs.length, none, ⟨[], .incompleteStream⟩, pattern⟩,
       .ok ⟨evs.length, 0⟩) := by
  simp [ClpIrV1Decoder.build_idx, ClpIrV1Decoder.init, runBuildLoop_eq]

theorem build_idx_init_corrupt (evs : List LogEvent) (cat msg pattern : String) (len : Nat) :
    (ClpIrV1Decoder.init ⟨evs, .corruptStream cat msg⟩ pattern len).build_idx 0 0 =
      (⟨evs, max cDefaultNumLogEvents evs.length, some len,
        ⟨[], .corruptStream cat msg⟩, pattern⟩,
       .error (.corrupt ("Failed to decompress: " ++ cat ++ ":" ++ msg))) := by
  simp [ClpIrV1Decoder.build_idx, ClpIrV1Decoder.init, runBuildLoop_eq]

theorem build_idx_already_built (st : ClpIrV1Decoder) (h : st.m_log_events_capacity ≠ 0) :
    st.build_idx 0 0 = (st, .ok ⟨st.m_log_events.length, 0⟩) := by
  simp [ClpIrV1Decoder.build_idx, h]

theorem decode_null_of_bad_range (st : ClpIrV1Decoder) (b e : Nat)
    (h : st.m_log_events.length < e ∨ b ≥ e) : st.decode b e = .ok none := by
  simp [ClpIrV1Decoder.decode, h]

theorem decode_window (st : ClpIrV1Decoder) (b e : Nat)
    (h1 : e ≤ st.m_log_events.length) (h2 : b < e) :
    st.decode b e =
      (decodeLoop st.m_ts_pattern b
        ((st.m_log_events.drop b).take (e - b)) 0 []).map some := by
  have h : ¬(st.m_log_events.length < e ∨ b ≥ e) := by omega
  simp [ClpIrV1Decoder.decode, h]

theorem rendersCleanly_inv (ev : LogEvent) (h : rendersCleanly ev = true) :
    ∃ msg, generic_decode_message ev.logtype ev.encodedVars ev.dictVars = some msg ∧
      1 ≤ msg.length := by
  unfold rendersCleanly at h
  cases hg : generic_decode_message ev.logtype ev.encodedVars ev.dictVars with
  | none => rw [hg] at h; exact absurd h (by simp)
  | some msg => rw [hg] at h; exact ⟨msg, rfl, by simpa using h⟩

theorem computeLogLevel_ok (msg : String) (h : 1 ≤ msg.length) :
    computeLogLevel msg =
      .ok (scanLogLevelNames (string_drop msg 1) 1 (cLogLevelNames.drop 1)) := by
  simp [computeLogLevel, string_substr, h, Except.map]

theorem decodeLoop_append_clean (pattern : String) (b : Nat) (evs1 evs2 : List LogEvent) :
    ∀ (offset : Nat) (acc : List DecodedTuple),
      (∀ ev ∈ evs1, rendersCleanly ev = true) →
      ∃ ts1 : List DecodedTuple,
        ts1.length = evs1.length ∧
        (∀ i (hi : i < ts1.length), (ts1.get ⟨i, hi⟩).eventNumber = b + offset + i + 1) ∧
        decodeLoop pattern b (evs1 ++ evs2) offset acc =
          decodeLoop pattern b evs2 (offset + evs1.length) (acc ++ ts1) := by
  induction evs1 with
  | nil =>
      intro offset acc _
      refine ⟨[], rfl, ?_, by simp⟩
      intro i hi
      exact absurd hi (by simp)
  | cons ev rest ih =>
      intro offset acc hclean
      obtain ⟨msg, hmsg, hlen⟩ := rendersCleanly_inv ev (hclean ev (by simp))
      obtain ⟨ts1, hts1len, hts1num, hts1eq⟩ :=
        ih (offset + 1)
          (acc ++ [⟨insert_formatted_timestamp pattern ev.timestamp msg, ev.timestamp,
            scanLogLevelNames (string_drop msg 1) 1 (cLogLevelNames.drop 1), b + offset + 1⟩])
          (fun e he => hclean e (by simp [he]))
      refine ⟨⟨insert_formatted_timestamp pattern ev.timestamp msg, ev.timestamp,
        scanLogLevelNames (string_drop msg 1) 1 (cLogLevelNames.drop 1), b + offset + 1⟩ :: ts1,
        by simp [hts1len], ?_, ?_⟩
      · intro i hi
        cases i with
        | zero => simp
        | succ i' =>
            have hnum := hts1num i' (by simpa using hi)
            simpa [Nat.add_assoc, Nat.add_comm, Nat.add_left_comm] using hnum
      · show decodeLoop pattern b (ev :: (rest ++ evs2)) offset acc = _
        rw [decodeLoop]
        simp only [hmsg, computeLogLevel_ok msg hlen]
        rw [hts1eq]
        have hoff : offset + 1 + rest.length = offset + (rest.length + 1) := by omega
        rw [hoff]
        have hacc :
            acc ++ [(⟨insert_formatted_timestamp pattern ev.timestamp msg, ev.timestamp,
              scanLogLevelNames (string_drop msg 1) 1 (cLogLevelNames.drop 1), b + offset + 1⟩ :
                DecodedTuple)] ++ ts1 =
            acc ++ (⟨insert_formatted_timestamp pattern ev.timestamp msg, ev.timestamp,
              scanLogLevelNames (string_drop msg 1) 1 (cLogLevelNames.drop 1), b + offset + 1⟩ :: ts1) := by
          simp
        rw [hacc]
        simp

theorem decodeLoop_clean (pattern : String) (b : Nat) (evs : List LogEvent)
    (offset : Nat) (acc : List DecodedTuple)
    (h : ∀ ev ∈ evs, rendersCleanly ev = true) :
    ∃ ts : List DecodedTuple,
      ts.length = evs.length ∧
      (∀ i (hi : i < ts.length), (ts.get ⟨i, hi⟩).eventNumber = b + offset + i + 1) ∧
      decodeLoop pattern b evs offset acc = .ok (acc ++ ts) := by
  obtain ⟨ts, h1, h2, h3⟩ := decodeLoop_append_clean pattern b evs [] offset acc h
  refine ⟨ts, h1, h2, ?_⟩
  rw [show evs ++ [] = evs from by simp] at h3
  rw [h3, decodeLoop]

theorem decodeLoop_ok_shape (pattern : String) (b : Nat) :
    ∀ (evs : List LogEvent) (offset : Nat) (acc res : List DecodedTuple),
      decodeLoop pattern b evs offset acc = .ok res →
      ∃ ts, res = acc ++ ts ∧
        ∀ i (hi : i < ts.length), (ts.get ⟨i, hi⟩).eventNumber = b + offset + i + 1 := by
  intro evs
  induction evs with
  | nil =>
      intro offset acc res h
      rw [decodeLoop] at h
      refine ⟨[], by simpa using (Except.ok.inj h).symm, ?_⟩
      intro i hi
      exact absurd hi (by simp)
  | cons ev rest ih =>
      intro offset acc res h
      rw [decodeLoop] at h
      cases hg : generic_decode_message ev.logtype ev.encodedVars ev.dictVars with
      | none =>
          simp only [hg] at h
          refine ⟨[], by simpa using (Except.ok.inj h).symm, ?_⟩
          intro i hi
          exact absurd hi (by simp)
      | some msg =>
          simp only [hg] at h
          cases hl : computeLogLevel msg with
          | error e => simp only [hl] at h; exact absurd h (by simp)
          | ok lvl =>
              simp only [hl] at h
              obtain ⟨ts', hres, hnum⟩ := ih (offset + 1) _ res h
              refine ⟨⟨insert_formatted_timestamp pattern ev.timestamp msg, ev.timestamp,
                lvl, b + offset + 1⟩ :: ts', by simpa using hres, ?_⟩
              intro i hi
              cases i with
              | zero => simp
              | succ i' =>
                  have := hnum i' (by simpa using hi)
                  simpa [Nat.add_assoc, Nat.add_comm, Nat.add_left_comm] using this

theorem getD_drop_one (L : List String) (k : Nat) :
    (L.drop 1).getD k "" = L.getD (1 + k) "" := by
  simp [List.getD, List.getElem?_drop, Nat.add_comm]

theorem scanLogLevelNames_spec (tail : String) :
    ∀ (names : List String) (i : Nat),
      (scanLogLevelNames tail i names = cLogLevelNone ∧
        ∀ j, j < names.length → string_starts_with tail (names.getD j "") = false) ∨
      (∃ j, j < names.length ∧
        scanLogLevelNames tail i names = i + j ∧
        string_starts_with tail (names.getD j "") = true ∧
        ∀ j2, j2 < j → string_starts_with tail (names.getD j2 "") = false) := by
  intro names
  induction names with
  | nil =>
      intro i
      left
      refine ⟨rfl, ?_⟩
      intro j hj
      exact absurd hj (by simp)
  | cons name rest ih =>
      intro i
      by_cases hs : string_starts_with tail name = true
      · right
        refine ⟨0, by simp, by simp [scanLogLevelNames, hs], by simpa using hs, ?_⟩
        intro j2 hj2
        exact absurd hj2 (by omega)
      · have hs' : string_starts_with tail name = false := by simpa using hs
        rcases ih (i + 1) with ⟨h0, hall⟩ | ⟨j, hj, heq, hsw, hbefore⟩
        · left
          refine ⟨by simp [scanLogLevelNames, hs', h0], ?_⟩
          intro j hj
          cases j with
          | zero => simpa using hs'
          | succ j' => simpa using hall j' (by simpa using hj)
        · right
          refine ⟨j + 1, by simpa using hj, ?_, by simpa using hsw, ?_⟩
          · rw [show scanLogLevelNames tail i (name :: rest) =
                scanLogLevelNames tail (i + 1) rest from by simp [scanLogLevelNames, hs']]
            omega
          · intro j2 hj2
            cases j2 with
            | zero => simpa using hs'
            | succ j2' => simpa using hbefore j2' (by omega)

theorem except_map_some_ne_ok_none (x : Except CppException (List DecodedTuple)) :
    x.map some ≠ .ok none := by
  cases x <;> simp [Except.map]

/- Claim theorems. -/

/-- C10: whenever `build_idx` returns a result object, its `numInvalidEvents`
field is exactly 0, for every decoder state and argument pair — truncated
streams included — so the only per-stream count a caller observes through the
build result is the number of successfully buffered events. -/
theorem c10_build_reports_zero_invalid (st : ClpIrV1Decoder) (begin_idx end_idx : Nat)
    (r : BuildResult) (h : (st.build_idx begin_idx end_idx).2 = .ok r) :
    r.numInvalidEvents = 0 := by
  unfold ClpIrV1Decoder.build_idx at h
  split at h
  · simp at h
  · split at h
    · split at h <;> simp_all <;> rw [← h]
    · simp_all
      rw [← h]

theorem c10_witness : BuildResult.numInvalidEvents ⟨1, 0⟩ = 0 :=
  c10_build_reports_zero_invalid (ClpIrV1Decoder.init eosSample "p" 10) 0 0 ⟨1, 0⟩ rfl

/-- C4: once a first `build()` has completed on a freshly created decoder (the
stream's terminal condition is not the fatal corrupt case), a second invocation
returns the same valid-event count and leaves the entire state — the released
data buffer and the exhausted deserializer included — untouched, so it performs
no deserialization steps. -/
theorem c4_build_idempotent_once_run (stream : IrEventStream) (pattern : String) (len : Nat)
    (h : ∀ cat msg, stream.terminal ≠ .corruptStream cat msg) :
    ((ClpIrV1Decoder.init stream pattern len).build_idx 0 0).2 =
        .ok ⟨stream.events.length, 0⟩ ∧
      ((ClpIrV1Decoder.init stream pattern len).build_idx 0 0).1.build_idx 0 0 =
        (((ClpIrV1Decoder.init stream pattern len).build_idx 0 0).1,
         .ok ⟨stream.events.length, 0⟩) := by
  obtain ⟨evs, t⟩ := stream
  cases t with
  | endOfStream =>
      rw [build_idx_init_done]
      refine ⟨rfl, ?_⟩
      rw [build_idx_already_built _ (capacity_after_build_ne_zero _)]
  | incompleteStream =>
      rw [build_idx_init_truncated]
      refine ⟨rfl, ?_⟩
      rw [build_idx_already_built _ (capacity_after_build_ne_zero _)]
  | corruptStream cat msg =>
      exact absurd rfl (h cat msg)

theorem c4_witness :
    ((ClpIrV1Decoder.init eosSample "p" 10).build_idx 0 0).1.build_idx 0 0 =
      (((ClpIrV1Decoder.init eosSample "p" 10).build_idx 0 0).1, .ok ⟨1, 0⟩) :=
  (c4_build_idempotent_once_run eosSample "p" 10
    (by intro cat msg hcm; exact Terminal.noConfusion hcm)).2

/-- C3 counterexample: on a stream whose deserialization pass terminates in the
fatal (corrupt-record) state, `build_idx` throws before reaching the
`m_data_buffer.reset(nullptr)` statement, so the backing buffer is still held
after the pass terminated — the claim's "null immediately after termination by
any of the three outcomes" fails for `Fatal`. -/
theorem c3_counterexample :
    (corruptState0.build_idx 0 0).2 =
        .error (.corrupt "Failed to decompress: clp:bad record") ∧
      corruptState1.m_data_buffer = some 10 := ⟨rfl, rfl⟩

/-- C3 amended: the backing buffer is non-null before the one-time pass runs
and is released exactly once, at the moment the pass terminates in `Done` or
`Truncated`; a termination in `Fatal` skips the release (the throw exits before
the reset), and a repeated `build()` leaves the state — the buffer included —
untouched, so the buffer is never released a second time. -/
theorem c3_buffer_released_on_done_or_truncated (stream : IrEventStream)
    (pattern : String) (len : Nat) :
    (ClpIrV1Decoder.init stream pattern len).m_data_buffer = some len ∧
      ((stream.terminal = .endOfStream ∨ stream.terminal = .incompleteStream) →
        ((ClpIrV1Decoder.init stream pattern len).build_idx 0 0).1.m_data_buffer = none) ∧
      (∀ cat msg, stream.terminal = .corruptStream cat msg →
        ((ClpIrV1Decoder.init stream pattern len).build_idx 0 0).1.m_data_buffer = some len) ∧
      (((ClpIrV1Decoder.init stream pattern len).build_idx 0 0).1.build_idx 0 0).1 =
        ((ClpIrV1Decoder.init stream pattern len).build_idx 0 0).1 := by
  obtain ⟨evs, t⟩ := stream
  cases t with
  | endOfStream =>
      refine ⟨rfl, fun _ => ?_, fun cat msg hcm => absurd hcm (by simp), ?_⟩
      · rw [build_idx_init_done]
      · rw [build_idx_init_done, build_idx_already_built _ (capacity_after_build_ne_zero _)]
  | incompleteStream =>
      refine ⟨rfl, fun _ => ?_, fun cat msg hcm => absurd hcm (by simp), ?_⟩
      · rw [build_idx_init_truncated]
      · rw [build_idx_init_truncated, build_idx_already_built _ (capacity_after_build_ne_zero _)]
  | corruptStream cat msg =>
      refine ⟨rfl, fun hd => ?_, fun cat2 msg2 _ => ?_, ?_⟩
      · rcases hd with hd | hd <;> exact absurd hd (by simp)
      · rw [build_idx_init_corrupt]
      · rw [build_idx_init_corrupt, build_idx_already_built _ (capacity_after_build_ne_zero _)]

theorem c3_witness :
    ((ClpIrV1Decoder.init eosSample "p" 10).build_idx 0 0).1.m_data_buffer = none :=
  (c3_buffer_released_on_done_or_truncated eosSample "p" 10).2.1 (Or.inl rfl)

/-- C1 counterexample: after a fatal first build on a stream holding one
well-formed event before a malformed record, the events appended before the
fault remain exposed as a usable collection — a second `build()` reports one
valid event, `getNumEventsBuffered` reports 1, and `decodeRange(0, 1)` decodes
the pre-fault event into a tuple. -/
theorem c1_counterexample :
    (corruptState0.build_idx 0 0).2 =
        .error (.corrupt "Failed to decompress: clp:bad record") ∧
      corruptState1.get_estimated_num_events = 1 ∧
      (corruptState1.build_idx 0 0).2 = .ok ⟨1, 0⟩ ∧
      corruptState1.decode 0 1 = .ok (some [⟨"A hellop5", 5, 0, 1⟩]) := by
  refine ⟨rfl, rfl, rfl, ?_⟩
  decide

/-- C1 amended: a malformed record that is neither end-of-stream nor truncation
aborts `build()` with a `CorruptStream` failure, but the partial progress is
not discarded: the events appended before the fault stay buffered, a second
`build()` succeeds and reports their count as the valid-event total, and a
nonempty retained range is accepted by `decode` rather than answered with the
null signal. -/
theorem c1_fatal_build_retains_partial_events (evs : List LogEvent)
    (cat msg pattern : String) (len : Nat) :
    ((ClpIrV1Decoder.init ⟨evs, .corruptStream cat msg⟩ pattern len).build_idx 0 0).2 =
        .error (.corrupt ("Failed to decompress: " ++ cat ++ ":" ++ msg)) ∧
      ((ClpIrV1Decoder.init ⟨evs, .corruptStream cat msg⟩ pattern len).build_idx
          0 0).1.m_log_events = evs ∧
      (((ClpIrV1Decoder.init ⟨evs, .corruptStream cat msg⟩ pattern len).build_idx
          0 0).1.build_idx 0 0).2 = .ok ⟨evs.length, 0⟩ ∧
      (evs ≠ [] →
        ((ClpIrV1Decoder.init ⟨evs, .corruptStream cat msg⟩ pattern len).build_idx
            0 0).1.decode 0 evs.length ≠ .ok none) := by
  rw [build_idx_init_corrupt]
  refine ⟨rfl, rfl, ?_, ?_⟩
  · rw [build_idx_already_built _ (capacity_after_build_ne_zero _)]
  · intro hne hdec
    have hlen : 0 < evs.length := List.length_pos.mpr hne
    rw [decode_window _ 0 evs.length (Nat.le_refl _) hlen] at hdec
    exact except_map_some_ne_ok_none _ hdec

theorem c1_witness :
    ((ClpIrV1Decoder.init ⟨[sampleEvent], .corruptStream "clp" "bad record"⟩ "p"
        10).build_idx 0 0).1.decode 0 1 ≠ .ok none :=
  (c1_fatal_build_retains_partial_events [sampleEvent] "clp" "bad record" "p" 10).2.2.2
    (by simp)

/-- C5: a stream whose body ends mid-record terminates the build in the
truncated state: `build()` returns the count of the events deserialized before
the incomplete record as a normal (non-error) result, the buffer retains
exactly those events, and — the retained range being nonempty and each retained
event's message rendering cleanly — decoding the retained range afterwards
succeeds with one tuple per retained event. -/
theorem c5_truncated_stream_keeps_events (evs : List LogEvent) (pattern : String) (len : Nat)
    (hclean : ∀ ev ∈ evs, rendersCleanly ev = true) (hne : 0 < evs.length) :
    ((ClpIrV1Decoder.init ⟨evs, .incompleteStream⟩ pattern len).build_idx 0 0).2 =
        .ok ⟨evs.length, 0⟩ ∧
      ((ClpIrV1Decoder.init ⟨evs, .incompleteStream⟩ pattern len).build_idx
          0 0).1.m_log_events = evs ∧
      ∃ ts : List DecodedTuple,
        ((ClpIrV1Decoder.init ⟨evs, .incompleteStream⟩ pattern len).build_idx
            0 0).1.decode 0 evs.length = .ok (some ts) ∧
        ts.length = evs.length := by
  rw [build_idx_init_truncated]
  refine ⟨rfl, rfl, ?_⟩
  rw [decode_window _ 0 evs.length (Nat.le_refl _) hne]
  have hwin :
      (((⟨evs, max cDefaultNumLogEvents evs.length, none, ⟨[], .incompleteStream⟩, pattern⟩ :
        ClpIrV1Decoder).m_log_events.drop 0).take (evs.length - 0)) = evs := by
    simp
  rw [hwin]
  obtain ⟨ts, hl, _hnum, heq⟩ := decodeLoop_clean pattern 0 evs 0 [] hclean
  refine ⟨ts, ?_, hl⟩
  rw [heq]
  simp [Except.map]

theorem c5_witness :
    (((ClpIrV1Decoder.init ⟨[sampleEvent], .incompleteStream⟩ "p" 10).build_idx 0 0).2 =
        .ok ⟨1, 0⟩) ∧
      ((ClpIrV1Decoder.init ⟨[sampleEvent], .incompleteStream⟩ "p" 10).build_idx
          0 0).1.m_log_events = [sampleEvent] :=
  ⟨(c5_truncated_stream_keeps_events [sampleEvent] "p" 10 (by decide) (by decide)).1,
   (c5_truncated_stream_keeps_events [sampleEvent] "p" 10 (by decide) (by decide)).2.1⟩

/-- C2 counterexample: on a buffer of one event the empty range `[0, 0)`
satisfies `0 ≤ beginIdx ≤ endIdx ≤ N`, yet `decode` answers it with the null
signal instead of succeeding with an empty batch. -/
theorem c2_counterexample :
    builtState.get_estimated_num_events = 1 ∧
      builtState.decode 0 0 = .ok none := ⟨rfl, rfl⟩

/-- C2 amended: over the unfiltered buffer, `decode(b, e)` rejects any range
with `e > N` or `b ≥ e` — the empty ranges `b = e` included — by answering the
explicit null signal; for `0 ≤ b < e ≤ N`, when every event of the range
renders cleanly, it succeeds with exactly one tuple per index of `[b, e)` in
increasing order. -/
theorem c2_decode_range_bounds (st : ClpIrV1Decoder) (b e : Nat) :
    (¬(b < e ∧ e ≤ st.m_log_events.length) → st.decode b e = .ok none) ∧
      ((b < e ∧ e ≤ st.m_log_events.length ∧
          ∀ ev ∈ (st.m_log_events.drop b).take (e - b), rendersCleanly ev = true) →
        ∃ ts : List DecodedTuple,
          st.decode b e = .ok (some ts) ∧
          ts.length = e - b ∧
          ∀ k (hk : k < ts.length), (ts.get ⟨k, hk⟩).eventNumber = b + k + 1) := by
  constructor
  · intro hbad
    exact decode_null_of_bad_range st b e (by omega)
  · rintro ⟨h1, h2, hclean⟩
    rw [decode_window st b e h2 h1]
    obtain ⟨ts, hl, hnum, heq⟩ := decodeLoop_clean st.m_ts_pattern b
      ((st.m_log_events.drop b).take (e - b)) 0 [] hclean
    refine ⟨ts, ?_, ?_, ?_⟩
    · rw [heq]
      simp [Except.map]
    · rw [hl]
      simp only [List.length_take, List.length_drop]
      omega
    · intro k hk
      simpa using hnum k hk

theorem c2_witness : builtState.decode 2 3 = .ok none :=
  (c2_decode_range_bounds builtState 2 3).1 (by decide)

/-- C6: in every tuple a `decode` call produces, the `eventNumber` field equals
the event's 1-based position in the full unfiltered buffer: the k-th tuple of
the batch for `[b, e)` carries `b + k + 1`, independent of the requested range's
own numbering. -/
theorem c6_event_number_is_absolute (st : ClpIrV1Decoder) (b e : Nat)
    (ts : List DecodedTuple) (h : st.decode b e = .ok (some ts)) :
    ∀ k (hk : k < ts.length), (ts.get ⟨k, hk⟩).eventNumber = b + k + 1 := by
  unfold ClpIrV1Decoder.decode at h
  split at h
  · simp at h
  · cases hd : decodeLoop st.m_ts_pattern b
        ((st.m_log_events.drop b).take (e - b)) 0 [] with
    | error ex => rw [hd] at h; simp [Except.map] at h
    | ok l =>
        rw [hd] at h
        simp [Except.map] at h
        subst h
        obtain ⟨ts', hres, hnum⟩ := decodeLoop_ok_shape st.m_ts_pattern b _ 0 [] l hd
        simp only [List.nil_append] at hres
        subst hres
        intro k hk
        simpa using hnum k hk

theorem c6_witness :
    (([⟨"A hellop5", 5, 0, 1⟩] : List DecodedTuple).get ⟨0, Nat.one_pos⟩).eventNumber =
      0 + 0 + 1 :=
  c6_event_number_is_absolute builtState 0 1 [⟨"A hellop5", 5, 0, 1⟩] (by decide) 0 Nat.one_pos

/-- C7: when the first rendering failure of the requested range occurs at
position `b + |evs1|` (the events before it rendering cleanly), the batch
result keeps exactly the tuples of the positions before the failing event,
produces nothing at or after it, and no exception escapes `decode` — the
result is still a successful (non-null, non-throwing) batch. -/
theorem c7_render_failure_truncates_batch (st : ClpIrV1Decoder) (b e : Nat)
    (evs1 : List LogEvent) (evFail : LogEvent) (rest : List LogEvent)
    (hwin : (st.m_log_events.drop b).take (e - b) = evs1 ++ evFail :: rest)
    (h1 : b < e) (h2 : e ≤ st.m_log_events.length)
    (hclean : ∀ ev ∈ evs1, rendersCleanly ev = true)
    (hfail : generic_decode_message evFail.logtype evFail.encodedVars evFail.dictVars = none) :
    ∃ ts : List DecodedTuple,
      st.decode b e = .ok (some ts) ∧
      ts.length = evs1.length ∧
      ∀ i (hi : i < ts.length), (ts.get ⟨i, hi⟩).eventNumber = b + i + 1 := by
  rw [decode_window st b e h2 h1, hwin]
  obtain ⟨ts1, hlen, hnum, heq⟩ :=
    decodeLoop_append_clean st.m_ts_pattern b evs1 (evFail :: rest) 0 [] hclean
  rw [heq, decodeLoop]
  simp only [hfail]
  refine ⟨ts1, by simp [Except.map], hlen, ?_⟩
  intro i hi
  simpa using hnum i hi

theorem c7_witness : (mixedState.decode 0 2).isOk = true := by
  obtain ⟨ts, hts, -, -⟩ :=
    c7_render_failure_truncates_batch mixedState 0 2 [sampleEvent] failEvent []
      (by decide) (by decide) (by decide) (by decide) (by decide)
  rw [hts]
  rfl

/-- C8 counterexample: for a rendered message of length 0 the level is not
"none": `message.substr(1)` throws `std::out_of_range`, which escapes the whole
`decode` call, as exhibited on a buffered event rendering to the empty
message. -/
theorem c8_counterexample :
    computeLogLevel "" = .error .outOfRange ∧
      emptyMsgState.decode 0 1 = .error .outOfRange := by
  refine ⟨rfl, ?_⟩
  decide

/-- C8 amended: for every decoded message of length at least 1 the log level is
computed by skipping exactly one leading character and scanning the fixed
level-name table from index 1 upward, assigning the first matching index; if no
entry from index 1 on matches — messages of length 1 included — the level is
"none" (index 0), and the reserved entry at index 0 is never matched against
the text.  A message of length 0 instead aborts the computation with an
out-of-range error. -/
theorem c8_log_level_first_match (msg : String) (h : 1 ≤ msg.length) :
    ∃ l, computeLogLevel msg = .ok l ∧
      ((l = cLogLevelNone ∧
          ∀ i, 1 ≤ i → i < cLogLevelNames.length →
            string_starts_with (string_drop msg 1) (cLogLevelNames.getD i "") = false) ∨
        (1 ≤ l ∧ l < cLogLevelNames.length ∧
          string_starts_with (string_drop msg 1) (cLogLevelNames.getD l "") = true ∧
          ∀ j, 1 ≤ j → j < l →
            string_starts_with (string_drop msg 1) (cLogLevelNames.getD j "") = false)) := by
  refine ⟨_, computeLogLevel_ok msg h, ?_⟩
  rcases scanLogLevelNames_spec (string_drop msg 1) (cLogLevelNames.drop 1) 1 with
    ⟨h0, hall⟩ | ⟨j, hj, heq, hsw, hbefore⟩
  · left
    refine ⟨h0, ?_⟩
    intro i h1i hi
    have hi' : i - 1 < (cLogLevelNames.drop 1).length := by
      simp only [List.length_drop]
      omega
    have := hall (i - 1) hi'
    rw [getD_drop_one, show 1 + (i - 1) = i from by omega] at this
    exact this
  · right
    rw [heq]
    have hjlen : j < cLogLevelNames.length - 1 := by
      simpa using hj
    refine ⟨by omega, by omega, ?_, ?_⟩
    · rw [getD_drop_one] at hsw
      exact hsw
    · intro j2 h1j2 hj2
      have := hbefore (j2 - 1) (by omega)
      rw [getD_drop_one, show 1 + (j2 - 1) = j2 from by omega] at this
      exact this

theorem c8_witness : (computeLogLevel "XINFO rest").isOk = true := by
  obtain ⟨l, hl, -⟩ := c8_log_level_first_match "XINFO rest" (by decide)
  rw [hl]
  rfl

/-- C9 counterexample: when the metadata preamble cannot be deserialized (a
malformed metadata block framing), creation fails with the generic `Failure`
code — neither `MetadataCorrupted` nor `UnsupportedEncoding` — so creation
neither succeeds nor fails with one of the two classes the claim assigns. -/
theorem c9_counterexample :
    StreamReader.create ⟨some true, none⟩ = .error .failure ∧
      ClpFfiJsErrorCode.failure ≠ .metadataCorrupted ∧
      ClpFfiJsErrorCode.failure ≠ .unsupported :=
  ⟨rfl, by decide, by decide⟩

/-- C9 amended: creation classifies failures as the code does — malformed
encoding-type framing yields `MetadataCorrupted`; a valid tag indicating a
width other than four-byte yields `UnsupportedEncoding`; a metadata preamble
that cannot be deserialized yields the generic `Failure` code (not
`MetadataCorrupted`); a metadata block that is not parseable as the expected
structured document or lacks the version field yields `MetadataCorrupted`; a
resolved version with no known deserialization strategy yields
`UnsupportedEncoding`; and creation succeeds otherwise. -/
theorem c9_create_error_taxonomy (src : StreamSource) :
    (src.encodingTag = none → StreamReader.create src = .error .metadataCorrupted) ∧
      (src.encodingTag = some false → StreamReader.create src = .error .unsupported) ∧
      (src.encodingTag = some true → src.metadata = none →
        StreamReader.create src = .error .failure) ∧
      (src.encodingTag = some true →
        (src.metadata = some .unparseable ∨ src.metadata = some .missingVersionKey) →
        StreamReader.create src = .error .metadataCorrupted) ∧
      (∀ v, src.encodingTag = some true → src.metadata = some (.withVersion v) →
        ((v ∈ cUnstructuredIrVersions → StreamReader.create src = .ok v) ∧
          (v ∉ cUnstructuredIrVersions → StreamReader.create src = .error .unsupported))) := by
  obtain ⟨tag, md⟩ := src
  refine ⟨?_, ?_, ?_, ?_, ?_⟩
  · intro htag
    cases tag with
    | none =>
        cases md with
        | none => rfl
        | some m => cases m <;> rfl
    | some b => exact absurd htag (by simp)
  · intro htag
    cases tag with
    | none => exact absurd htag (by simp)
    | some b =>
        have hb : b = false := by simpa using htag
        subst hb
        cases md with
        | none => rfl
        | some m => cases m <;> rfl
  · intro htag hmd
    cases tag with
    | none => exact absurd htag (by simp)
    | some b =>
        have hb : b = true := by simpa using htag
        subst hb
        cases md with
        | none => rfl
        | some m => exact absurd hmd (by simp)
  · intro htag hmd
    cases tag with
    | none => exact absurd htag (by simp)
    | some b =>
        have hb : b = true := by simpa using htag
        subst hb
        cases md with
        | none => rcases hmd with hmd | hmd <;> exact absurd hmd (by simp)
        | some m =>
            cases m with
            | unparseable => rfl
            | missingVersionKey => rfl
            | withVersion v => rcases hmd with hmd | hmd <;> exact absurd hmd (by simp)
  · intro v htag hmd
    cases tag with
    | none => exact absurd htag (by simp)
    | some b =>
        have hb : b = true := by simpa using htag
        subst hb
        cases md with
        | none => exact absurd hmd (by simp)
        | some m =>
            cases m with
            | unparseable => exact absurd hmd (by simp)
            | missingVersionKey => exact absurd hmd (by simp)
            | withVersion w =>
                have hw : w = v := by simpa using hmd
                subst hw
                constructor
                · intro hin
                  simp [StreamReader.create, rewind_reader_and_validate_encoding_type,
                    get_version, hin, bind, Except.bind, pure, Except.pure]
                · intro hout
                  simp [StreamReader.create, rewind_reader_and_validate_encoding_type,
                    get_version, hout, bind, Except.bind, pure, Except.pure, throw, throwThe,
                    MonadExceptOf.throw]

theorem c9_witness :
    StreamReader.create ⟨some true, some (.withVersion "0.0.1")⟩ = .ok "0.0.1" :=
  ((c9_create_error_taxonomy ⟨some true, some (.withVersion "0.0.1")⟩).2.2.2.2 "0.0.1"
    rfl rfl).1 (by decide)

end ClpWasm
